import Mathlib

/-!
Shallow embedding of `src/aia_review_app.py` (AIA Pay App Reviewer, subtotal
analysis).  Python floats are modelled as `ℚ`; a missing/NaN cell is `none`.
Pandas semantics relevant here and reflected below:

* `df.groupby("Section")` (default `sort=True`) emits one group per distinct
  section key, keys sorted lexicographically by code point.
* `sum` over a group skips missing values and returns `0` when every value is
  missing; `mean` skips missing values and is missing when all are missing
  (the generic `float64` column semantics).
* `pd.merge(..., how="outer")` on tables with unique keys yields one record
  per key of either side; a side that lacks the key contributes missing
  values there.
* On `float64` columns, `x != y` is `True` whenever either operand is NaN
  (in particular `NaN != NaN` is `True`).
-/

/-! ## Lexicographic string order (code-point order, as pandas sorts keys) -/

def charListLe : List Char → List Char → Bool
  | [], _ => true
  | _ :: _, [] => false
  | a :: as, b :: bs => if a < b then true else if b < a then false else charListLe as bs

def strLe (a b : String) : Prop := charListLe a.data b.data = true

instance : DecidableRel strLe := fun a b => instDecidableEqBool (charListLe a.data b.data) true

/-! ## Data model: one parsed row (columns Section / Previous / This Period /
Total / % Complete) and one aggregated (per-section) row. -/

structure ScheduleRow where
  sectionName : String
  previous : Option ℚ
  thisPeriod : Option ℚ
  total : Option ℚ
  pctComplete : Option ℚ
deriving DecidableEq

structure SubtotalRow where
  sectionName : String
  previous : ℚ
  thisPeriod : ℚ
  total : ℚ
  pctComplete : Option ℚ
deriving DecidableEq

/-! ## Aggregator: `subtotal_by_section` (source lines 112-120).
`df.groupby("Section").agg(sum/sum/sum/mean).reset_index()`. -/

/-- Pandas group `sum`: skip missing values, `0` when all are missing. -/
def sumCells (l : List (Option ℚ)) : ℚ := (l.filterMap id).sum

/-- Pandas group `mean`: skip missing values, missing when all are missing. -/
def meanCells (l : List (Option ℚ)) : Option ℚ :=
  let v := l.filterMap id
  if v.length = 0 then none else some (v.sum / (v.length : ℚ))

/-- Distinct elements in order of first appearance (`seen` accumulates the
keys already emitted). -/
def dedupFirstAux (seen : List String) : List String → List String
  | [] => []
  | x :: xs => if x ∈ seen then dedupFirstAux seen xs else x :: dedupFirstAux (x :: seen) xs

def dedupFirst (l : List String) : List String := dedupFirstAux [] l

def aggGroup (k : String) (g : List ScheduleRow) : SubtotalRow :=
  { sectionName := k
  , previous := sumCells (g.map (·.previous))
  , thisPeriod := sumCells (g.map (·.thisPeriod))
  , total := sumCells (g.map (·.total))
  , pctComplete := meanCells (g.map (·.pctComplete)) }

def subtotal_by_section (df : List ScheduleRow) : List SubtotalRow :=
  (List.insertionSort strLe (dedupFirst (df.map (·.sectionName)))).map
    (fun k => aggGroup k (df.filter (fun r => r.sectionName == k)))

/-! ## Reconciler: `merge_subtotals` (source lines 128-134). -/

/-- Element-wise `!=` of two `float64` cells: `True` whenever either side is
NaN (missing), exact inequality when both are present. -/
def pandasNe : Option ℚ → Option ℚ → Bool
  | some a, some b => decide (a ≠ b)
  | _, _ => true

structure MergedRow where
  sectionName : String
  prevRow : Option SubtotalRow
  currRow : Option SubtotalRow
  mismatch : Bool
  pctInconsistency : Bool
deriving DecidableEq

/-- One output record of the outer join.  `mismatch` is source line 132:
`Previous_prev.fillna(0) + This Period_curr.fillna(0) != Total_curr.fillna(0)`;
`pctInconsistency` is line 133: `% Complete_prev != % Complete_curr`. -/
def mkMerged (k : String) (p c : Option SubtotalRow) : MergedRow :=
  { sectionName := k
  , prevRow := p
  , currRow := c
  , mismatch :=
      decide ((p.map (·.previous)).getD 0 + (c.map (·.thisPeriod)).getD 0
                ≠ (c.map (·.total)).getD 0)
  , pctInconsistency := pandasNe (p.bind (·.pctComplete)) (c.bind (·.pctComplete)) }

/-- `pd.merge(prev, curr, on="Section", how="outer", suffixes=("_prev", "_curr"))`
for tables with unique keys (the aggregator's outputs always are): one record
per key of `prev` in order, then the keys only `curr` has.  Every per-claim
property proved below is independent of the record order. -/
def merge_subtotals (prev curr : List SubtotalRow) : List MergedRow :=
  prev.map
    (fun p => mkMerged p.sectionName (some p)
      (curr.find? (fun c => c.sectionName == p.sectionName)))
  ++ (curr.filter
        (fun c => (prev.find? (fun p => p.sectionName == c.sectionName)).isNone)).map
      (fun c => mkMerged c.sectionName none (some c))

/-! ## Spreadsheet extractor: `parse_excel` (source lines 70-83).
The sheet as `pd.read_excel` returns it: a set of column names plus the cell
contents of each row (a missing or non-numeric cell is `none`).  The column
check is the only validation; no row is ever dropped. -/

structure ExcelSheet where
  cols : List String
  rows : List ScheduleRow

def requiredCols : List String := ["Section", "Previous", "This Period", "Total"]

def parse_excel (d : ExcelSheet) : Option (List ScheduleRow) :=
  if requiredCols.all (fun c => d.cols.contains c) then
    some (if d.cols.contains ("% Complete") then d.rows
          else d.rows.map (fun r => { r with pctComplete := none }))
  else none

/-! ## Page-text extractor: `parse_pdf` (source lines 34-65).
`re.findall(r"[-+]?\d*\.\d+|\d+", line)` — leftmost scan, first alternative
preferred, no preprocessing of the line. -/

/-- Greedy `\d*` / `\d+`: leading digits and the rest. -/
def takeDigits : List Char → List Char × List Char
  | [] => ([], [])
  | c :: cs =>
    if c.isDigit then
      let p := takeDigits cs
      (c :: p.1, p.2)
    else ([], c :: cs)

/-- Match `\d*\.\d+` at the head: token and remainder. -/
def matchFrac (cs : List Char) : Option (List Char × List Char) :=
  let p := takeDigits cs
  match p.2 with
  | '.' :: rest =>
    let q := takeDigits rest
    if q.1.isEmpty then none else some (p.1 ++ '.' :: q.1, q.2)
  | _ => none

/-- Match the first alternative `[-+]?\d*\.\d+` at the head. -/
def matchSigned (cs : List Char) : Option (List Char × List Char) :=
  match cs with
  | c :: rest =>
    if c = '-' ∨ c = '+' then (matchFrac rest).map (fun pr => (c :: pr.1, pr.2))
    else matchFrac cs
  | [] => none

/-- Match the second alternative `\d+` at the head. -/
def matchInt (cs : List Char) : Option (List Char × List Char) :=
  let p := takeDigits cs
  if p.1.isEmpty then none else some p

/-- `re.findall` scan; the fuel (initialised to the length) dominates the
number of steps, each of which consumes at least one character. -/
def findNumbersAux : ℕ → List Char → List String
  | 0, _ => []
  | _ + 1, [] => []
  | fuel + 1, c :: rest =>
    match matchSigned (c :: rest) with
    | some pr => String.mk pr.1 :: findNumbersAux fuel pr.2
    | none =>
      match matchInt (c :: rest) with
      | some pr => String.mk pr.1 :: findNumbersAux fuel pr.2
      | none => findNumbersAux fuel rest

/-- All numeric tokens of one line, exactly as the source's `re.findall`. -/
def findNumbers (line : String) : List String := findNumbersAux line.data.length line.data

def digitsVal (l : List Char) : ℕ := l.foldl (fun acc c => 10 * acc + (c.toNat - 48)) 0

def pyFloatCore (l : List Char) : ℚ :=
  let p := takeDigits l
  match p.2 with
  | '.' :: rest =>
    let q := takeDigits rest
    (digitsVal p.1 : ℚ) + (digitsVal q.1 : ℚ) / (10 : ℚ) ^ q.1.length
  | _ => (digitsVal p.1 : ℚ)

/-- `float(tok)` for the tokens `findNumbers` produces (sign, digits,
optional fractional part); exact rational value. -/
def pyFloat (s : String) : ℚ :=
  match s.data with
  | '-' :: rest => -(pyFloatCore rest)
  | '+' :: rest => pyFloatCore rest
  | l => pyFloatCore l

/-- Python `str.isupper` restricted to ASCII: at least one letter and no
lower-case letter. -/
def pyIsUpper (s : String) : Bool := s.data.any (·.isAlpha) && s.data.all (fun c => !c.isLower)

/-- Python `str.split()` with no argument: runs of whitespace, no empties. -/
def pySplitWs (s : String) : List String :=
  (s.split (fun c => c.isWhitespace)).filter (fun t => !t.isEmpty)

/-- One line of the per-page loop: either it is a section header (all upper
case, at most 5 tokens), or it parses as a data row when it yields at least 3
numeric tokens, or it is skipped. -/
def parsePdfLine (sect : Option String) (line : String) :
    Option String × Option ScheduleRow :=
  if pyIsUpper line = true ∧ (pySplitWs line).length ≤ 5 then (some line.trim, none)
  else
    match findNumbers line with
    | n0 :: n1 :: n2 :: rest =>
      (sect, some
        { sectionName := sect.getD "Unspecified"
        , previous := some (pyFloat n0)
        , thisPeriod := some (pyFloat n1)
        , total := some (pyFloat n2)
        , pctComplete := (rest.head?).map pyFloat })
    | _ => (sect, none)

/-- The whole-document loop: pages are lists of lines (`none` when
`extract_text` returned nothing); the current section threads across pages. -/
def parse_pdf (pages : List (Option (List String))) : List ScheduleRow :=
  (pages.foldl
    (fun st page =>
      match page with
      | none => st
      | some lines =>
        lines.foldl
          (fun st2 line =>
            let r := parsePdfLine st2.1 line
            (r.1, st2.2 ++ r.2.toList))
          st)
    ((none : Option String), ([] : List ScheduleRow))).2

/-! ## Reporter: `format_numbers` (source lines 141-149), `to_csv` and the
download button (lines 162-168). -/

/-- Banker's rounding to an integer, as Python's `format` rounds. -/
def roundHalfEven (q : ℚ) : ℤ :=
  let f : ℤ := ⌊q⌋
  let r : ℚ := q - (f : ℚ)
  if r < 1 / 2 then f else if 1 / 2 < r then f + 1 else if f % 2 = 0 then f else f + 1

/-- Insert a comma after every three digits, scanning the reversed digits. -/
def commafyAux : List Char → List Char
  | a :: b :: c :: rest =>
    match rest with
    | [] => [a, b, c]
    | _ :: _ => a :: b :: c :: ',' :: commafyAux rest
  | l => l

def commafy (s : String) : String := String.mk ((commafyAux s.data.reverse).reverse)

def pad2 (n : ℕ) : String := if n < 10 then "0" ++ toString n else toString n

def centsString (cents : ℕ) : String :=
  commafy (toString (cents / 100)) ++ "." ++ pad2 (cents % 100)

/-- Python `f"..."` fixed-point formatting with a thousands separator and two
decimals, on the exact rational value. -/
def formatFixed2 (q : ℚ) : String :=
  let cents := roundHalfEven (q * 100)
  if cents < 0 then "-" ++ centsString cents.natAbs else centsString cents.toNat

/-- The `lambda` of `format_numbers`: format when the cell is present,
empty string otherwise. -/
def fmtCell : Option ℚ → String
  | some q => formatFixed2 q
  | none => ""

/-- Decimal rendering of a float for `to_csv` (`str`); the fuel bounds the
fractional digits — exact for the decimally-terminating values that occur. -/
def fracDigits : ℕ → ℚ → List Char
  | 0, _ => []
  | fuel + 1, q =>
    if q = 0 then []
    else Char.ofNat (48 + (⌊q * 10⌋).toNat) :: fracDigits fuel (q * 10 - ((⌊q * 10⌋ : ℤ) : ℚ))

def pyFloatStr (q : ℚ) : String :=
  let sgn := if q < 0 then "-" else ""
  let a := |q|
  let ip : ℤ := ⌊a⌋
  let ds := fracDigits 17 (a - (ip : ℚ))
  sgn ++ toString ip.toNat ++ "." ++ (if ds.isEmpty then "0" else String.mk ds)

/-- The displayed / exported frame after `format_numbers`: `num_cols` (and
only those five columns) have become strings; the other numeric columns stay
raw floats; the two flags stay booleans. -/
structure DisplayRow where
  sectionName : String
  previousPrev : String
  thisPeriodPrev : Option ℚ
  totalPrev : Option ℚ
  pctPrev : String
  previousCurr : Option ℚ
  thisPeriodCurr : String
  totalCurr : String
  pctCurr : String
  mismatch : Bool
  pctInconsistency : Bool
deriving DecidableEq

def format_numbers (m : MergedRow) : DisplayRow :=
  { sectionName := m.sectionName
  , previousPrev := fmtCell (m.prevRow.map (·.previous))
  , thisPeriodPrev := m.prevRow.map (·.thisPeriod)
  , totalPrev := m.prevRow.map (·.total)
  , pctPrev := fmtCell (m.prevRow.bind (·.pctComplete))
  , previousCurr := m.currRow.map (·.previous)
  , thisPeriodCurr := fmtCell (m.currRow.map (·.thisPeriod))
  , totalCurr := fmtCell (m.currRow.map (·.total))
  , pctCurr := fmtCell (m.currRow.bind (·.pctComplete))
  , mismatch := m.mismatch
  , pctInconsistency := m.pctInconsistency }

/-- CSV field quoting as pandas `to_csv` does it. -/
def csvField (s : String) : String :=
  if s.contains ',' || s.contains '"' || s.contains '\n' then
    "\"" ++ (String.replace s ("\"") ("\"\"")) ++ "\""
  else s

def optFloatCsv : Option ℚ → String
  | some q => pyFloatStr q
  | none => ""

def boolCsv (b : Bool) : String := if b then "True" else "False"

def csvHeader : String :=
  String.intercalate ","
    (["Section", "Previous_prev", "This Period_prev", "Total_prev",
      "% Complete_prev", "Previous_curr", "This Period_curr", "Total_curr",
      "% Complete_curr", "Mismatch", "Pct_Inconsistency"].map csvField)

def displayRowCsv (r : DisplayRow) : String :=
  String.intercalate ","
    ([r.sectionName, r.previousPrev, optFloatCsv r.thisPeriodPrev,
      optFloatCsv r.totalPrev, r.pctPrev, optFloatCsv r.previousCurr,
      r.thisPeriodCurr, r.totalCurr, r.pctCurr, boolCsv r.mismatch,
      boolCsv r.pctInconsistency].map csvField)

/-- `merged_subtotals.to_csv(index=False)` of the formatted frame. -/
def to_csv (rows : List DisplayRow) : String :=
  csvHeader ++ "\n" ++ String.join (rows.map (fun r => displayRowCsv r ++ "\n"))

/-! ## Top-level script flow (source lines 100-204): parse both files,
aggregate, merge, format, display, offer the CSV, then — only if both files
are uploaded, the prompt is non-empty, the key is configured and a merged
table exists — attempt the advisory call inside `try/except`. -/

structure AppOutput where
  table : Option (List DisplayRow)
  csvOffered : Option String
  advisoryShown : Option String
  advisoryError : Option String
deriving DecidableEq

def runApp (prevDf currDf : Option (List ScheduleRow)) (bothFilesUploaded : Bool)
    (userPrompt : String) (hasApiKey : Bool)
    (advisoryCall : Except String String) : AppOutput :=
  let merged : Option (List MergedRow) :=
    match prevDf.map subtotal_by_section, currDf.map subtotal_by_section with
    | some p, some c => some (merge_subtotals p c)
    | _, _ => none
  let formatted := merged.map (List.map format_numbers)
  let csv := formatted.map to_csv
  let adv : Option String × Option String :=
    if bothFilesUploaded = true ∧ userPrompt ≠ "" ∧ hasApiKey = true ∧ merged.isSome = true then
      match advisoryCall with
      | Except.ok s => (some s, none)
      | Except.error e => (none, some ("Error generating AI summary: " ++ e))
    else (none, none)
  { table := formatted, csvOffered := csv, advisoryShown := adv.1, advisoryError := adv.2 }

/-! ## Concrete example tables used by the counterexamples and witnesses -/

/-- One row per section key, keys in the order B, A (first-appearance order
is not sorted). -/
def dfBA : List ScheduleRow :=
  [⟨"B", some 1, some 1, some 2, none⟩, ⟨"A", some 1, some 1, some 2, none⟩]

/-- Spec scenario C: the Concrete line across the two periods. -/
def dfConcPrev : List ScheduleRow := [⟨"Concrete", some 500, some 300, some 1500, none⟩]
def dfConcCurr : List ScheduleRow := [⟨"Concrete", some 1500, some 200, some 1700, none⟩]
def subConcPrev : SubtotalRow := ⟨"Concrete", 500, 300, 1500, none⟩
def subConcCurr : SubtotalRow := ⟨"Concrete", 1500, 200, 1700, none⟩
def recConc : MergedRow := mkMerged ("Concrete") (some subConcPrev) (some subConcCurr)

/-- Two sections on each side: section A has no percent value anywhere,
section B has the same percent value `1/2` on both sides. -/
def dfPctPrev : List ScheduleRow :=
  [⟨"A", some 1, some 1, some 2, none⟩, ⟨"B", some 1, some 1, some 2, some (1/2)⟩]
def dfPctCurr : List ScheduleRow :=
  [⟨"A", some 1, some 1, some 2, none⟩, ⟨"B", some 1, some 1, some 2, some (1/2)⟩]
def subPctA : SubtotalRow := ⟨"A", 1, 1, 2, none⟩
def subPctB : SubtotalRow := ⟨"B", 1, 1, 2, some (1/2)⟩
def recPctA : MergedRow := mkMerged ("A") (some subPctA) (some subPctA)
def recPctB : MergedRow := mkMerged ("B") (some subPctB) (some subPctB)

/-- One key only in the previous table (nonzero previous sum), one key only
in the current table (this-period sum equal to its total). -/
def dfOnlyPrev : List ScheduleRow := [⟨"OnlyPrev", some 5, some 0, some 0, none⟩]
def dfOnlyCurr : List ScheduleRow := [⟨"OnlyCurr", some 0, some 3, some 3, none⟩]
def subOnlyPrev : SubtotalRow := ⟨"OnlyPrev", 5, 0, 0, none⟩
def subOnlyCurr : SubtotalRow := ⟨"OnlyCurr", 0, 3, 3, none⟩
def recOnlyPrev : MergedRow := mkMerged ("OnlyPrev") (some subOnlyPrev) none
def recOnlyCurr : MergedRow := mkMerged ("OnlyCurr") none (some subOnlyCurr)

/-- Sections A, B on the previous side and B, C on the current side. -/
def dfJoinPrev : List ScheduleRow :=
  [⟨"A", some 1, some 0, some 1, none⟩, ⟨"B", some 2, some 0, some 2, none⟩]
def dfJoinCurr : List ScheduleRow :=
  [⟨"B", some 2, some 1, some 3, none⟩, ⟨"C", some 0, some 4, some 4, none⟩]

/-- A sheet with all columns, whose single row has no `Total` value. -/
def sheetMissingTotal : ExcelSheet :=
  ⟨["Section", "Previous", "This Period", "Total", "% Complete"],
   [⟨"A", some 500, some 100, none, none⟩]⟩

/-- A previous table whose `Previous` sum is 1234.5. -/
def dfFmtPrev : List ScheduleRow := [⟨"A", some (2469/2), some 0, some 0, none⟩]
def dfFmtCurr : List ScheduleRow := [⟨"A", some 0, some 0, some 0, none⟩]
def subFmtPrev : SubtotalRow := ⟨"A", 2469/2, 0, 0, none⟩
def subFmtCurr : SubtotalRow := ⟨"A", 0, 0, 0, none⟩
def recFmt : MergedRow := mkMerged ("A") (some subFmtPrev) (some subFmtCurr)

/-- `reset_index` view of an aggregated row as a plain table row. -/
def subToRow (s : SubtotalRow) : ScheduleRow :=
  ⟨s.sectionName, some s.previous, some s.thisPeriod, some s.total, s.pctComplete⟩

/-- A sorted one-row-per-key table with all amount fields present. -/
def dfSorted : List ScheduleRow :=
  [⟨"A", some 1, some 2, some 3, some (1/4)⟩, ⟨"B", some 4, some 5, some 6, none⟩]

/-! ## Order lemmas for the key sort -/

theorem charListLe_total : ∀ a b : List Char, charListLe a b = true ∨ charListLe b a = true := by
  intro a
  induction a with
  | nil => intro b; left; rfl
  | cons x as ih =>
    intro b
    cases b with
    | nil => right; rfl
    | cons y bs =>
      simp only [charListLe]
      rcases lt_trichotomy x y with h | h | h
      · left; simp [h]
      · subst h
        simpa [lt_irrefl] using ih bs
      · right; simp [h, not_lt_of_gt h]

theorem charListLe_trans : ∀ a b c : List Char,
    charListLe a b = true → charListLe b c = true → charListLe a c = true := by
  intro a
  induction a with
  | nil => intro b c _ _; rfl
  | cons x as ih =>
    intro b c hab hbc
    cases b with
    | nil => simp [charListLe] at hab
    | cons y bs =>
      cases c with
      | nil => simp [charListLe] at hbc
      | cons z cs =>
        simp only [charListLe] at hab hbc ⊢
        by_cases hxy : x < y
        · by_cases hyz : y < z
          · simp [lt_trans hxy hyz]
          · by_cases hzy : z < y
            · simp [hyz, hzy] at hbc
            · have hyzeq : y = z := le_antisymm (not_lt.1 hzy) (not_lt.1 hyz)
              subst hyzeq
              simp [hxy]
        · by_cases hyx : y < x
          · simp [hxy, hyx] at hab
          · have hxyeq : x = y := le_antisymm (not_lt.1 hyx) (not_lt.1 hxy)
            subst hxyeq
            simp only [lt_irrefl, if_false] at hab ⊢
            by_cases hyz : x < z
            · simp [hyz]
            · by_cases hzy : z < x
              · simp [hyz, hzy] at hbc
              · have hyzeq : x = z := le_antisymm (not_lt.1 hzy) (not_lt.1 hyz)
                subst hyzeq
                simp only [lt_irrefl, if_false] at hbc ⊢
                exact ih bs cs hab hbc

instance : IsTotal String strLe := ⟨fun a b => charListLe_total a.data b.data⟩

instance : IsTrans String strLe := ⟨fun a b c => charListLe_trans a.data b.data c.data⟩

/-! ## `dedupFirst` lemmas -/

theorem mem_dedupFirstAux {a : String} :
    ∀ {l seen : List String}, a ∈ dedupFirstAux seen l ↔ a ∈ l ∧ a ∉ seen := by
  intro l
  induction l with
  | nil => intro seen; simp [dedupFirstAux]
  | cons x xs ih =>
    intro seen
    by_cases h : x ∈ seen
    · rw [dedupFirstAux, if_pos h, ih]
      constructor
      · rintro ⟨h1, h2⟩
        exact ⟨List.mem_cons_of_mem _ h1, h2⟩
      · rintro ⟨h1, h2⟩
        rcases List.mem_cons.1 h1 with rfl | h1
        · exact absurd h h2
        · exact ⟨h1, h2⟩
    · rw [dedupFirstAux, if_neg h, List.mem_cons]
      constructor
      · rintro (rfl | hmem)
        · exact ⟨List.mem_cons_self _ _, h⟩
        · rcases ih.1 hmem with ⟨h1, h2⟩
          exact ⟨List.mem_cons_of_mem _ h1,
            fun hm => h2 (List.mem_cons_of_mem _ hm)⟩
      · rintro ⟨h1, h2⟩
        by_cases hax : a = x
        · exact Or.inl hax
        · rcases List.mem_cons.1 h1 with rfl | h1
          · exact Or.inl rfl
          · refine Or.inr (ih.2 ⟨h1, fun hm => ?_⟩)
            rcases List.mem_cons.1 hm with rfl | hm
            · exact hax rfl
            · exact h2 hm

theorem dedupFirstAux_nodup : ∀ (l seen : List String), (dedupFirstAux seen l).Nodup := by
  intro l
  induction l with
  | nil => intro seen; simp [dedupFirstAux]
  | cons x xs ih =>
    intro seen
    rw [dedupFirstAux]
    split
    · exact ih _
    · refine List.nodup_cons.2 ⟨fun hmem => ?_, ih _⟩
      rcases mem_dedupFirstAux.1 hmem with ⟨_, hnot⟩
      exact hnot (List.mem_cons_self _ _)

theorem dedupFirstAux_eq_self :
    ∀ {l seen : List String}, l.Nodup → (∀ a ∈ l, a ∉ seen) → dedupFirstAux seen l = l := by
  intro l
  induction l with
  | nil => intro seen _ _; rfl
  | cons x xs ih =>
    intro seen hnd hdisj
    rcases List.nodup_cons.1 hnd with ⟨hx, hxs⟩
    rw [dedupFirstAux, if_neg (hdisj x (List.mem_cons_self _ _))]
    congr 1
    refine ih hxs fun a ha => ?_
    intro hm
    rcases List.mem_cons.1 hm with rfl | hm
    · exact hx ha
    · exact hdisj a (List.mem_cons_of_mem _ ha) hm

theorem mem_dedupFirst {a : String} {l : List String} : a ∈ dedupFirst l ↔ a ∈ l := by
  rw [dedupFirst, mem_dedupFirstAux]
  simp

theorem dedupFirst_nodup (l : List String) : (dedupFirst l).Nodup := dedupFirstAux_nodup l []

theorem dedupFirst_eq_self {l : List String} (h : l.Nodup) : dedupFirst l = l :=
  dedupFirstAux_eq_self h (by simp)

@[simp] theorem aggGroup_sectionName (k : String) (g : List ScheduleRow) :
    (aggGroup k g).sectionName = k := rfl

/-- The sections of the aggregator's output are exactly the distinct input
sections, sorted. -/
theorem subtotal_sections (df : List ScheduleRow) :
    (subtotal_by_section df).map (·.sectionName)
      = List.insertionSort strLe (dedupFirst (df.map (·.sectionName))) := by
  unfold subtotal_by_section
  rw [List.map_map]
  exact List.map_id _

/-! ## Concrete tables used by counterexamples and witnesses -/

/-- Claim C4 counterexample: the aggregator's output sections for `dfBA` come
out sorted as A, B although first appearance order is B, A — `groupby`
(default `sort=True`) sorts the keys, it does not keep insertion order. -/
theorem claim4_counterexample :
    (subtotal_by_section dfBA).map (·.sectionName) = ["A", "B"]
      ∧ dedupFirst (dfBA.map (·.sectionName)) = ["B", "A"]
      ∧ (subtotal_by_section dfBA).map (·.sectionName)
          ≠ dedupFirst (dfBA.map (·.sectionName)) := by
  decide

/-- Claim C4 (amended): for every input table the aggregator's output
sections are the distinct input sections sorted lexicographically (pandas
`groupby` default `sort=True`), hence sorted and duplicate-free — and, being
a function of the input, deterministic given a deterministic input row
order. -/
theorem claim4_sorted_order (df : List ScheduleRow) :
    (subtotal_by_section df).map (·.sectionName)
        = List.insertionSort strLe (dedupFirst (df.map (·.sectionName)))
      ∧ List.Sorted strLe ((subtotal_by_section df).map (·.sectionName))
      ∧ ((subtotal_by_section df).map (·.sectionName)).Nodup := by
  refine ⟨subtotal_sections df, ?_, ?_⟩
  · rw [subtotal_sections]
    exact List.sorted_insertionSort strLe _
  · rw [subtotal_sections]
    exact ((List.perm_insertionSort strLe _).nodup_iff).2 (dedupFirst_nodup _)

/-- Claim C6 counterexample: the line `$1,500.00` is not extracted as the
single token `1500.00`; no separator/currency stripping happens before the
regex scan. -/
theorem claim6_counterexample : findNumbers ("$1,500.00") ≠ ["1500.00"] := by decide

/-- Claim C6 (amended): the numeric pattern is matched on the raw line — the
currency symbol is merely skipped, but a thousands separator splits the
match, so `$1,500.00` yields the two tokens `1` and `500.00` (while a line
without the separator yields the full token). -/
theorem claim6_no_stripping :
    findNumbers ("$1,500.00") = ["1", "500.00"]
      ∧ findNumbers ("1500.00") = ["1500.00"]
      ∧ findNumbers ("1,500.00") = ["1", "500.00"] := by
  decide

/-- Claim C9: the reconciliation table and the offered CSV are the same
whatever the advisory call returns, and a failing advisory call surfaces as
an error notice with no summary shown — it never alters the table. -/
theorem claim9_advisory_isolated :
    ∀ (pd cd : Option (List ScheduleRow)) (b : Bool) (up : String) (key : Bool)
      (adv adv' : Except String String),
      (runApp pd cd b up key adv).table = (runApp pd cd b up key adv').table
        ∧ (runApp pd cd b up key adv).csvOffered = (runApp pd cd b up key adv').csvOffered
        ∧ ∀ e : String, (runApp pd cd b up key (Except.error e)).advisoryShown = none := by
  intro pd cd b up key adv adv'
  refine ⟨rfl, rfl, fun e => ?_⟩
  unfold runApp
  dsimp only
  split
  · rfl
  · rfl

/-! ## Per-record structure of the join output -/

/-- Every record of `merge_subtotals` carries the source's two flag formulas
over its own stored sides. -/
theorem mem_merge_fields {P C : List SubtotalRow} {rec : MergedRow}
    (h : rec ∈ merge_subtotals P C) :
    rec.mismatch
        = decide ((rec.prevRow.map (·.previous)).getD 0
            + (rec.currRow.map (·.thisPeriod)).getD 0
            ≠ (rec.currRow.map (·.total)).getD 0)
      ∧ rec.pctInconsistency
        = pandasNe (rec.prevRow.bind (·.pctComplete)) (rec.currRow.bind (·.pctComplete)) := by
  rcases List.mem_append.1 h with h1 | h1
  · rcases List.mem_map.1 h1 with ⟨p, _, rfl⟩
    exact ⟨rfl, rfl⟩
  · rcases List.mem_map.1 h1 with ⟨c, _, rfl⟩
    exact ⟨rfl, rfl⟩

/-- Claim C1: in section-subtotal mode, for a joined key present in both
aggregated tables, `Mismatch` is set exactly when the previous table's
`Previous` sum plus the current table's `This Period` sum is not exactly
equal to the current table's `Total` sum — exact equality, no tolerance. -/
theorem claim1_amount_mismatch_exact
    (dfPrev dfCurr : List ScheduleRow) (rec : MergedRow)
    (hmem : rec ∈ merge_subtotals (subtotal_by_section dfPrev) (subtotal_by_section dfCurr))
    (p c : SubtotalRow) (hp : rec.prevRow = some p) (hc : rec.currRow = some c) :
    rec.mismatch = true ↔ p.previous + c.thisPeriod ≠ c.total := by
  rcases mem_merge_fields hmem with ⟨hm, _⟩
  rw [hm, hp, hc]
  simp

/-- Claim C2 (amended): `Pct_Inconsistency` is exact inequality when both
percent values are present; it is `true` whenever at least one side is
absent — including when both are absent, because `NaN != NaN` is `True`. -/
theorem claim2_pct_mismatch
    (dfPrev dfCurr : List ScheduleRow) (rec : MergedRow)
    (hmem : rec ∈ merge_subtotals (subtotal_by_section dfPrev) (subtotal_by_section dfCurr)) :
    ((rec.prevRow.bind (·.pctComplete) = none ∨ rec.currRow.bind (·.pctComplete) = none) →
        rec.pctInconsistency = true)
      ∧ ∀ p q : ℚ, rec.prevRow.bind (·.pctComplete) = some p →
          rec.currRow.bind (·.pctComplete) = some q →
          (rec.pctInconsistency = true ↔ p ≠ q) := by
  rcases mem_merge_fields hmem with ⟨_, hpct⟩
  constructor
  · rintro (h | h)
    · rw [hpct, h]
      cases rec.currRow.bind (·.pctComplete) <;> rfl
    · rw [hpct, h]
      cases rec.prevRow.bind (·.pctComplete) <;> rfl
  · intro p q hp hq
    rw [hpct, hp, hq]
    simp [pandasNe]

/-- Claim C10: a record whose key is on one side only has the absent side's
values coerced to `0` by `fillna(0)` in the amount formula: prev-only keys
are flagged iff their `Previous` sum is nonzero; curr-only keys are flagged
iff their `This Period` sum differs from their `Total` sum. -/
theorem claim10_fillna_one_sided
    (dfPrev dfCurr : List ScheduleRow) (rec : MergedRow)
    (hmem : rec ∈ merge_subtotals (subtotal_by_section dfPrev) (subtotal_by_section dfCurr)) :
    (∀ p : SubtotalRow, rec.prevRow = some p → rec.currRow = none →
        (rec.mismatch = true ↔ p.previous ≠ 0))
      ∧ ∀ c : SubtotalRow, rec.currRow = some c → rec.prevRow = none →
          (rec.mismatch = true ↔ c.thisPeriod ≠ c.total) := by
  rcases mem_merge_fields hmem with ⟨hm, _⟩
  constructor
  · intro p hp hc
    rw [hm, hp, hc]
    simp
  · intro c hc hp
    rw [hm, hp, hc]
    simp

/-- Evaluation helper: string `==` as a decidable equality test. -/
theorem string_beq (a b : String) : (a == b) = decide (a = b) := by
  by_cases h : a = b
  · subst h; simp
  · simp [h, Bool.eq_false_iff]

/-! ## Concrete joined tables (spec scenario C and percent cases) -/

theorem merge_conc_eval :
    merge_subtotals (subtotal_by_section dfConcPrev) (subtotal_by_section dfConcCurr)
      = [recConc] := by
  norm_num [merge_subtotals, subtotal_by_section, dfConcPrev, dfConcCurr, dedupFirst,
    dedupFirstAux, List.insertionSort, List.orderedInsert, aggGroup, sumCells, meanCells,
    List.filterMap, List.find?, recConc, subConcPrev, subConcCurr, mkMerged, pandasNe]

/-- Claim C1 witness: spec scenario C — `500 + 200 ≠ 1700`, so the record is
flagged. -/
theorem claim1_witness :
    (recConc.mismatch = true ↔ (500 : ℚ) + 200 ≠ 1700) ∧ recConc.mismatch = true := by
  have h := claim1_amount_mismatch_exact dfConcPrev dfConcCurr recConc
    (by rw [merge_conc_eval]; exact List.mem_singleton_self _)
    subConcPrev subConcCurr rfl rfl
  refine ⟨by simpa [subConcPrev, subConcCurr] using h, h.2 (by norm_num [subConcPrev, subConcCurr])⟩

theorem merge_pct_eval :
    merge_subtotals (subtotal_by_section dfPctPrev) (subtotal_by_section dfPctCurr)
      = [recPctA, recPctB] := by
  simp only [merge_subtotals, subtotal_by_section, dfPctPrev, dfPctCurr, dedupFirst,
    dedupFirstAux, List.insertionSort, List.orderedInsert, strLe, charListLe, aggGroup,
    sumCells, meanCells, List.filterMap, List.find?, List.filter, recPctA, recPctB,
    subPctA, subPctB, mkMerged, pandasNe, List.map, string_beq]
  simp

/-- Claim C2 counterexample: on section A both percent values are absent,
yet `Pct_Inconsistency` comes out `true` (`NaN != NaN` is `True` in pandas),
contradicting the claim that two absent values count as equal. -/
theorem claim2_counterexample :
    (merge_subtotals (subtotal_by_section dfPctPrev) (subtotal_by_section dfPctCurr)).map
        (fun r => (r.prevRow.bind (·.pctComplete), r.currRow.bind (·.pctComplete),
          r.pctInconsistency))
      = [(none, none, true), (some (1/2 : ℚ), some (1/2 : ℚ), false)] := by
  rw [merge_pct_eval]
  norm_num [recPctA, recPctB, subPctA, subPctB, mkMerged, pandasNe]

/-- Claim C2 witness: the exact-inequality case — both sides present and
equal on section B gives no flag; the both-absent section A is flagged. -/
theorem claim2_witness :
    recPctA.pctInconsistency = true ∧ recPctB.pctInconsistency = false := by
  have hA := (claim2_pct_mismatch dfPctPrev dfPctCurr recPctA
    (by rw [merge_pct_eval]; exact List.mem_cons_self _ _)).1 (Or.inl rfl)
  have hB := (claim2_pct_mismatch dfPctPrev dfPctCurr recPctB
    (by rw [merge_pct_eval]; exact List.mem_cons_of_mem _ (List.mem_singleton_self _))).2
    (1/2) (1/2) rfl rfl
  have hnot : ¬ recPctB.pctInconsistency = true := fun hh => (hB.1 hh) rfl
  exact ⟨hA, Bool.eq_false_iff.2 hnot⟩

theorem merge_only_eval :
    merge_subtotals (subtotal_by_section dfOnlyPrev) (subtotal_by_section dfOnlyCurr)
      = [recOnlyPrev, recOnlyCurr] := by
  simp only [merge_subtotals, subtotal_by_section, dfOnlyPrev, dfOnlyCurr, dedupFirst,
    dedupFirstAux, List.insertionSort, List.orderedInsert, strLe, charListLe, aggGroup,
    sumCells, meanCells, List.filterMap, List.find?, List.filter, recOnlyPrev, recOnlyCurr,
    subOnlyPrev, subOnlyCurr, mkMerged, pandasNe, List.map, string_beq]
  simp

/-- Claim C10 witness: the prev-only key with previous sum `5 ≠ 0` is
flagged; the curr-only key with `3 = 3` is not. -/
theorem claim10_witness :
    recOnlyPrev.mismatch = true ∧ recOnlyCurr.mismatch = false := by
  have h1 := (claim10_fillna_one_sided dfOnlyPrev dfOnlyCurr recOnlyPrev
    (by rw [merge_only_eval]; exact List.mem_cons_self _ _)).1 subOnlyPrev rfl rfl
  have h2 := (claim10_fillna_one_sided dfOnlyPrev dfOnlyCurr recOnlyCurr
    (by rw [merge_only_eval]; exact List.mem_cons_of_mem _ (List.mem_singleton_self _))).2
    subOnlyCurr rfl rfl
  have hnot : ¬ recOnlyCurr.mismatch = true := fun hh => (h2.1 hh) (by norm_num [subOnlyCurr])
  exact ⟨h1.2 (by norm_num [subOnlyPrev]), Bool.eq_false_iff.2 hnot⟩

/-! ## Outer-join completeness -/

theorem find?_section_isNone {l : List SubtotalRow} {k : String} :
    (l.find? (fun c => c.sectionName == k)).isNone = true ↔ k ∉ l.map (·.sectionName) := by
  rw [Option.isNone_iff_eq_none, List.find?_eq_none]
  constructor
  · intro h hmem
    rcases List.mem_map.1 hmem with ⟨c, hc, rfl⟩
    exact h c hc (by simp)
  · intro h c hc hbeq
    have hck : c.sectionName = k := by simpa using hbeq
    exact h (hck ▸ List.mem_map_of_mem _ hc)

theorem subtotal_keys_nodup (df : List ScheduleRow) :
    ((subtotal_by_section df).map (·.sectionName)).Nodup := by
  rw [subtotal_sections]
  exact ((List.perm_insertionSort strLe _).nodup_iff).2 (dedupFirst_nodup _)

/-- Full outer join shape of `merge_subtotals` for unique-keyed inputs. -/
theorem merge_outer_join (P C : List SubtotalRow)
    (hP : (P.map (·.sectionName)).Nodup) (hC : (C.map (·.sectionName)).Nodup) :
    (merge_subtotals P C).length
        = ((P.map (·.sectionName)).toFinset ∪ (C.map (·.sectionName)).toFinset).card
      ∧ ((merge_subtotals P C).map (·.sectionName)).Nodup
      ∧ (∀ k : String, k ∈ (merge_subtotals P C).map (·.sectionName)
          ↔ k ∈ P.map (·.sectionName) ∨ k ∈ C.map (·.sectionName))
      ∧ ∀ rec ∈ merge_subtotals P C,
          (rec.prevRow = none ↔ rec.sectionName ∉ P.map (·.sectionName))
            ∧ (rec.currRow = none ↔ rec.sectionName ∉ C.map (·.sectionName)) := by
  have hkeys : (merge_subtotals P C).map (·.sectionName)
      = P.map (·.sectionName)
        ++ (C.filter
              (fun c => (P.find? (fun p => p.sectionName == c.sectionName)).isNone)).map
            (·.sectionName) := by
    unfold merge_subtotals
    simp only [List.map_append, List.map_map]
    rfl
  have hfilmem : ∀ k : String,
      k ∈ (C.filter
              (fun c => (P.find? (fun p => p.sectionName == c.sectionName)).isNone)).map
            (·.sectionName)
        ↔ k ∈ C.map (·.sectionName) ∧ k ∉ P.map (·.sectionName) := by
    intro k
    constructor
    · intro hmem
      rcases List.mem_map.1 hmem with ⟨c, hcf, rfl⟩
      rcases List.mem_filter.1 hcf with ⟨hcC, hphi⟩
      exact ⟨List.mem_map_of_mem _ hcC, find?_section_isNone.1 hphi⟩
    · rintro ⟨h1, h2⟩
      rcases List.mem_map.1 h1 with ⟨c, hcC, rfl⟩
      exact List.mem_map_of_mem _ (List.mem_filter.2 ⟨hcC, find?_section_isNone.2 h2⟩)
  have hnodupM : ((merge_subtotals P C).map (·.sectionName)).Nodup := by
    rw [hkeys]
    refine List.Nodup.append hP (((List.filter_sublist _).map _).nodup hC) ?_
    intro a ha hb
    exact ((hfilmem a).1 hb).2 ha
  have hmemM : ∀ k : String, k ∈ (merge_subtotals P C).map (·.sectionName)
      ↔ k ∈ P.map (·.sectionName) ∨ k ∈ C.map (·.sectionName) := by
    intro k
    rw [hkeys, List.mem_append, hfilmem]
    constructor
    · rintro (h | ⟨h, _⟩)
      · exact Or.inl h
      · exact Or.inr h
    · rintro (h | h)
      · exact Or.inl h
      · by_cases hp : k ∈ P.map (·.sectionName)
        · exact Or.inl hp
        · exact Or.inr ⟨h, hp⟩
  refine ⟨?_, hnodupM, hmemM, ?_⟩
  · have h1 : (merge_subtotals P C).length
        = ((merge_subtotals P C).map (·.sectionName)).length := (List.length_map _ _).symm
    rw [h1, ← List.toFinset_card_of_nodup hnodupM]
    congr 1
    ext k
    simp only [List.mem_toFinset, Finset.mem_union]
    exact hmemM k
  · intro rec hmem
    rcases List.mem_append.1 hmem with h1 | h1
    · rcases List.mem_map.1 h1 with ⟨p, hpP, rfl⟩
      constructor
      · constructor
        · intro h
          simp [mkMerged] at h
        · intro h
          exact absurd (List.mem_map_of_mem (·.sectionName) hpP) h
      · rcases hfind : C.find? (fun c => c.sectionName == p.sectionName) with _ | c
        · constructor
          · intro _
            refine find?_section_isNone.1 ?_
            show (C.find? (fun c => c.sectionName == p.sectionName)).isNone = true
            rw [hfind]
            rfl
          · intro _
            simp [mkMerged, hfind]
        · have hcC := List.mem_of_find?_eq_some hfind
          have hsec : c.sectionName = p.sectionName := by
            simpa using List.find?_some hfind
          constructor
          · intro h
            simp [mkMerged, hfind] at h
          · intro h
            exact absurd (hsec ▸ List.mem_map_of_mem (·.sectionName) hcC) h
    · rcases List.mem_map.1 h1 with ⟨c, hcf, rfl⟩
      rcases List.mem_filter.1 hcf with ⟨hcC, hphi⟩
      constructor
      · constructor
        · intro _
          exact find?_section_isNone.1 hphi
        · intro _
          rfl
      · constructor
        · intro h
          simp [mkMerged] at h
        · intro h
          exact absurd (List.mem_map_of_mem (·.sectionName) hcC) h

/-- Claim C3: for every pair of aggregated tables the reconciler's output is
a full outer join on the section key — the record count is the size of the
union of the key sets, every key of either table appears in exactly one
record (the key list is duplicate-free and its membership is the union), and
a one-sided key's record has the other side absent. -/
theorem claim3_full_outer_join (dfPrev dfCurr : List ScheduleRow) :
    (merge_subtotals (subtotal_by_section dfPrev) (subtotal_by_section dfCurr)).length
        = (((subtotal_by_section dfPrev).map (·.sectionName)).toFinset
            ∪ ((subtotal_by_section dfCurr).map (·.sectionName)).toFinset).card
      ∧ ((merge_subtotals (subtotal_by_section dfPrev) (subtotal_by_section dfCurr)).map
          (·.sectionName)).Nodup
      ∧ (∀ k : String,
          k ∈ (merge_subtotals (subtotal_by_section dfPrev)
                (subtotal_by_section dfCurr)).map (·.sectionName)
            ↔ k ∈ (subtotal_by_section dfPrev).map (·.sectionName)
              ∨ k ∈ (subtotal_by_section dfCurr).map (·.sectionName))
      ∧ ∀ rec ∈ merge_subtotals (subtotal_by_section dfPrev) (subtotal_by_section dfCurr),
          (rec.prevRow = none
              ↔ rec.sectionName ∉ (subtotal_by_section dfPrev).map (·.sectionName))
            ∧ (rec.currRow = none
              ↔ rec.sectionName ∉ (subtotal_by_section dfCurr).map (·.sectionName)) :=
  merge_outer_join _ _ (subtotal_keys_nodup dfPrev) (subtotal_keys_nodup dfCurr)

/-- Claim C3 witness: keys A, B versus B, C give `|{A,B} ∪ {B,C}| = 3`
records. -/
theorem claim3_witness :
    (merge_subtotals (subtotal_by_section dfJoinPrev) (subtotal_by_section dfJoinCurr)).length
      = 3 := by
  rw [(claim3_full_outer_join dfJoinPrev dfJoinCurr).1]
  decide

/-! ## Spreadsheet rows are never dropped -/

/-- Claim C5 (amended): `parse_excel` performs no row-level validation — when
the required columns are present every row passes through unchanged in count
and in its three amount cells (only a missing `% Complete` column nulls that
one field), and a row whose `Previous` or `Total` cell is missing is kept,
its absent cell simply contributing nothing to the aggregator's sums. -/
theorem claim5_no_row_drop (d : ExcelSheet) (h : ∀ c ∈ requiredCols, c ∈ d.cols) :
    ∃ rows, parse_excel d = some rows
      ∧ rows.length = d.rows.length
      ∧ rows.map (·.sectionName) = d.rows.map (·.sectionName)
      ∧ rows.map (·.previous) = d.rows.map (·.previous)
      ∧ rows.map (·.thisPeriod) = d.rows.map (·.thisPeriod)
      ∧ rows.map (·.total) = d.rows.map (·.total) := by
  have hall : requiredCols.all (fun c => d.cols.contains c) = true := by
    rw [List.all_eq_true]
    intro c hc
    exact List.elem_iff.2 (h c hc)
  unfold parse_excel
  rw [if_pos hall]
  by_cases hcol : d.cols.contains ("% Complete") = true
  · rw [if_pos hcol]
    exact ⟨d.rows, rfl, rfl, rfl, rfl, rfl, rfl⟩
  · rw [if_neg hcol]
    refine ⟨_, rfl, ?_, ?_, ?_, ?_, ?_⟩ <;> simp

/-- Claim C5 counterexample: the row missing `Total` survives `parse_excel`
(count 1, not 0, and no warning path exists), and its present `Previous`
cell still feeds the aggregated sum — contradicting both the drop and the
never-contributes parts of the claim. -/
theorem claim5_counterexample :
    parse_excel sheetMissingTotal = some [⟨"A", some 500, some 100, none, none⟩]
      ∧ (subtotal_by_section [⟨"A", some 500, some 100, none, none⟩]).map
          (fun s => (s.sectionName, s.previous, s.total))
        = [("A", (500 : ℚ), (0 : ℚ))] := by
  constructor
  · rfl
  · norm_num [subtotal_by_section, dedupFirst, dedupFirstAux, List.insertionSort,
      List.orderedInsert, aggGroup, sumCells, meanCells, List.filterMap, List.map]

/-- Claim C5 witness: the sheet with the invalid row parses to one row, not
zero. -/
theorem claim5_witness :
    (parse_excel sheetMissingTotal).map List.length = some 1 := by
  rcases claim5_no_row_drop sheetMissingTotal (by decide) with ⟨rows, h1, h2, -, -, -, -⟩
  rw [h1]
  show some rows.length = some 1
  rw [h2]
  rfl

/-! ## Formatting evaluation -/

theorem fracDigits_zero : ∀ fuel : ℕ, fracDigits fuel 0 = [] := by
  intro fuel
  cases fuel with
  | zero => rfl
  | succ n => rw [fracDigits, if_pos rfl]

theorem fracDigits_succ (fuel : ℕ) (q : ℚ) (h : ¬ q = 0) :
    fracDigits (fuel + 1) q
      = Char.ofNat (48 + (⌊q * 10⌋).toNat) :: fracDigits fuel (q * 10 - ((⌊q * 10⌋ : ℤ) : ℚ)) := by
  rw [fracDigits, if_neg h]

theorem fracDigits_half : fracDigits 17 (1/2 : ℚ) = ['5'] := by
  rw [show (17 : ℕ) = 16 + 1 from rfl, fracDigits_succ 16 (1/2 : ℚ) (by norm_num)]
  have h2 : (⌊(1/2 : ℚ) * 10⌋ : ℤ) = 5 := by norm_num
  rw [h2]
  have h3 : (1/2 : ℚ) * 10 - ((5 : ℤ) : ℚ) = 0 := by norm_num
  rw [h3, fracDigits_zero]
  decide

/-- `1234.5` renders as `1,234.50` under the display format. -/
theorem formatFixed2_eval : formatFixed2 (2469/2 : ℚ) = "1,234.50" := by
  have hc : roundHalfEven ((2469/2 : ℚ) * 100) = 123450 := by
    norm_num [roundHalfEven]
  simp only [formatFixed2]
  rw [hc]
  decide

/-- `1234.5` renders as `1234.5` under the raw float `str`. -/
theorem pyFloatStr_eval : pyFloatStr (2469/2 : ℚ) = "1234.5" := by
  simp only [pyFloatStr]
  rw [if_neg (by norm_num : ¬ ((2469/2 : ℚ) < 0))]
  rw [show |(2469/2 : ℚ)| = 2469/2 from by norm_num]
  rw [show (⌊(2469/2 : ℚ)⌋ : ℤ) = 1234 from by norm_num]
  rw [show (2469/2 : ℚ) - ((1234 : ℤ) : ℚ) = 1/2 from by norm_num]
  rw [fracDigits_half]
  decide

theorem merge_fmt_eval :
    merge_subtotals (subtotal_by_section dfFmtPrev) (subtotal_by_section dfFmtCurr)
      = [recFmt] := by
  simp only [merge_subtotals, subtotal_by_section, dfFmtPrev, dfFmtCurr, dedupFirst,
    dedupFirstAux, List.insertionSort, List.orderedInsert, strLe, charListLe, aggGroup,
    sumCells, meanCells, List.filterMap, List.find?, List.filter, recFmt, subFmtPrev,
    subFmtCurr, mkMerged, pandasNe, List.map, string_beq]
  simp

/-- Claim C7 counterexample: the frame handed to `to_csv` already carries the
display-formatted string `1,234.50` in `Previous_prev` — not the raw decimal
`1234.5` — so the export contains formatted, not raw, values (the source's
own notes say the CSV contains formatted data). -/
theorem claim7_counterexample :
    ((merge_subtotals (subtotal_by_section dfFmtPrev) (subtotal_by_section dfFmtCurr)).map
        format_numbers).map (·.previousPrev) = ["1,234.50"]
      ∧ pyFloatStr (2469/2 : ℚ) = "1234.5"
      ∧ ("1,234.50" : String) ≠ "1234.5" := by
  refine ⟨?_, pyFloatStr_eval, by decide⟩
  rw [merge_fmt_eval]
  simp [recFmt, mkMerged, format_numbers, fmtCell, subFmtPrev, formatFixed2_eval]

/-- Claim C7 (amended): the offered CSV is exactly the `to_csv` rendering of
the already-formatted display table — the two-decimal thousands-separator
formatting (e.g. `1234.5` as `1,234.50`) is applied before the export, so
display and export share the same formatted values. -/
theorem claim7_export_formatted :
    (∀ (pd cd : Option (List ScheduleRow)) (b : Bool) (up : String) (key : Bool)
        (adv : Except String String),
      (runApp pd cd b up key adv).csvOffered = ((runApp pd cd b up key adv).table).map to_csv)
      ∧ formatFixed2 (2469/2 : ℚ) = "1,234.50" :=
  ⟨fun _ _ _ _ _ _ => rfl, formatFixed2_eval⟩

/-! ## Aggregation of an already-aggregated table -/

theorem aggGroup_singleton (r : ScheduleRow)
    (h : r.previous.isSome ∧ r.thisPeriod.isSome ∧ r.total.isSome) :
    subToRow (aggGroup r.sectionName [r]) = r := by
  rcases r with ⟨sec, p, t, u, pct⟩
  rcases h with ⟨hp, ht, hu⟩
  cases p with
  | none => simp at hp
  | some pv =>
    cases t with
    | none => simp at ht
    | some tv =>
      cases u with
      | none => simp at hu
      | some uv =>
        cases pct with
        | none => simp [subToRow, aggGroup, sumCells, meanCells, List.filterMap]
        | some pcv => simp [subToRow, aggGroup, sumCells, meanCells, List.filterMap]

theorem subtotal_map_eq : ∀ df : List ScheduleRow,
    (df.map (·.sectionName)).Nodup →
    (∀ r ∈ df, r.previous.isSome ∧ r.thisPeriod.isSome ∧ r.total.isSome) →
    ((df.map (·.sectionName)).map
        (fun k => aggGroup k (df.filter (fun r => r.sectionName == k)))).map subToRow = df := by
  intro df
  induction df with
  | nil => intro _ _; rfl
  | cons r rest ih =>
    intro hnodup hpres
    rw [List.map_cons] at hnodup
    rcases List.nodup_cons.1 hnodup with ⟨hhead, htail⟩
    have hfilnil : rest.filter (fun x => x.sectionName == r.sectionName) = [] := by
      rw [List.filter_eq_nil_iff]
      intro x hx hbeq
      have hxr : x.sectionName = r.sectionName := by simpa using hbeq
      exact hhead (hxr ▸ List.mem_map_of_mem _ hx)
    have hfilr : (r :: rest).filter (fun x => x.sectionName == r.sectionName) = [r] := by
      rw [List.filter_cons, if_pos (by simp), hfilnil]
    have hftail : ∀ k ∈ rest.map (·.sectionName),
        (r :: rest).filter (fun x => x.sectionName == k)
          = rest.filter (fun x => x.sectionName == k) := by
      intro k hk
      rw [List.filter_cons, if_neg ?_]
      simp only [beq_iff_eq, decide_eq_true_eq]
      intro heq
      exact hhead (heq ▸ hk)
    simp only [List.map_cons]
    congr 1
    · rw [hfilr]
      exact aggGroup_singleton r (hpres r (List.mem_cons_self r rest))
    · have hmapcong : (rest.map (·.sectionName)).map
            (fun k => aggGroup k ((r :: rest).filter (fun x => x.sectionName == k)))
          = (rest.map (·.sectionName)).map
            (fun k => aggGroup k (rest.filter (fun x => x.sectionName == k))) :=
        List.map_congr_left fun k hk => by rw [hftail k hk]
      rw [hmapcong]
      exact ih htail fun x hx => hpres x (List.mem_cons_of_mem _ hx)

theorem subtotal_keys_sorted (df : List ScheduleRow) :
    List.Sorted strLe ((subtotal_by_section df).map (·.sectionName)) := by
  rw [subtotal_sections]
  exact List.sorted_insertionSort strLe _

/-- Claim C8 (amended): the aggregator returns a one-row-per-key table
unchanged provided that table is sorted by key and its three amount cells
are present (singleton sums/means are identities; an absent percent stays
absent) — and re-aggregating the aggregator's own output is always the
identity.  Without sortedness the aggregator re-orders the rows, so "the
same table" fails (see the counterexample). -/
theorem claim8_aggregation_idempotent :
    (∀ df : List ScheduleRow,
        List.Sorted strLe (df.map (·.sectionName)) →
        (df.map (·.sectionName)).Nodup →
        (∀ r ∈ df, r.previous.isSome ∧ r.thisPeriod.isSome ∧ r.total.isSome) →
        (subtotal_by_section df).map subToRow = df)
      ∧ ∀ df : List ScheduleRow,
          subtotal_by_section ((subtotal_by_section df).map subToRow)
            = subtotal_by_section df := by
  have hmain : ∀ df : List ScheduleRow,
      List.Sorted strLe (df.map (·.sectionName)) →
      (df.map (·.sectionName)).Nodup →
      (∀ r ∈ df, r.previous.isSome ∧ r.thisPeriod.isSome ∧ r.total.isSome) →
      (subtotal_by_section df).map subToRow = df := by
    intro df hs hn hp
    unfold subtotal_by_section
    rw [dedupFirst_eq_self hn, List.Sorted.insertionSort_eq hs]
    exact subtotal_map_eq df hn hp
  refine ⟨hmain, fun df => ?_⟩
  have hsecX : (((subtotal_by_section df).map subToRow).map (·.sectionName))
      = (subtotal_by_section df).map (·.sectionName) := by
    rw [List.map_map]
    rfl
  have h1 := hmain ((subtotal_by_section df).map subToRow)
    (by rw [hsecX]; exact subtotal_keys_sorted df)
    (by rw [hsecX]; exact subtotal_keys_nodup df)
    (by
      rintro x hx
      rcases List.mem_map.1 hx with ⟨s, _, rfl⟩
      exact ⟨rfl, rfl, rfl⟩)
  have hinj : Function.Injective subToRow := by
    intro a b hab
    rcases a with ⟨s1, p1, t1, u1, pc1⟩
    rcases b with ⟨s2, p2, t2, u2, pc2⟩
    simp only [subToRow, ScheduleRow.mk.injEq, Option.some.injEq] at hab
    obtain ⟨rfl, rfl, rfl, rfl, rfl⟩ := hab
    rfl
  exact List.map_injective_iff.2 hinj h1

/-- Claim C8 counterexample: `dfBA` has exactly one row per section key and
all amount fields present, yet aggregating it does not return the same table
— `groupby` re-orders the keys to sorted order. -/
theorem claim8_counterexample :
    (dfBA.map (·.sectionName)).Nodup
      ∧ (subtotal_by_section dfBA).map subToRow ≠ dfBA := by
  refine ⟨by decide, fun h => ?_⟩
  have h1 : ((subtotal_by_section dfBA).map subToRow).map (·.sectionName) = ["A", "B"] := by
    decide
  rw [h] at h1
  exact absurd h1 (by decide)

/-- Claim C8 witness: on the sorted table the aggregator is the identity. -/
theorem claim8_witness : (subtotal_by_section dfSorted).map subToRow = dfSorted := by
  refine claim8_aggregation_idempotent.1 dfSorted ?_ (by decide) (by decide)
  rw [show dfSorted.map (·.sectionName) = ["A", "B"] from by decide]
  refine List.sorted_cons.2 ⟨?_, ?_⟩
  · intro b hb
    rw [List.mem_singleton.1 hb]
    decide
  · exact List.sorted_singleton _
